import Mathlib

/-!
Shallow embedding of the onyo inventory core (onyo/lib/inventory.py,
onyo/lib/filters.py, onyo/lib/utils.py) and proofs about it.

Python values are modelled by `PyValue`, paths by lists of segments,
asset dictionaries by ordered association lists, and exceptions by
`Except` with an explicit error type.  Components whose source file is
absent from the repository snapshot (constants from onyo/lib/consts.py,
the recorder and executor tables, the exception classes) are modelled
from the specification and say so in their doc comments.
-/

namespace Onyo

mutual
/-- A Python value as it occurs in asset dictionaries: `None`, booleans,
integers, strings, `pathlib.Path` objects, lists and dictionaries. -/
inductive PyValue where
  | pyNone : PyValue
  | pyBool (b : Bool) : PyValue
  | pyInt (n : Int) : PyValue
  | pyStr (s : String) : PyValue
  | pyPath (p : List String) : PyValue
  | pyList (l : PyList) : PyValue
  | pyDict (d : PyDict) : PyValue
deriving DecidableEq

/-- A Python list of values (spelled out so equality can be derived). -/
inductive PyList where
  | nil : PyList
  | cons (v : PyValue) (rest : PyList) : PyList
deriving DecidableEq

/-- A Python dictionary nested inside a value, in insertion order. -/
inductive PyDict where
  | nil : PyDict
  | cons (k : String) (v : PyValue) (rest : PyDict) : PyDict
deriving DecidableEq
end

/-- A filesystem path, as the list of its segments below the repository root. -/
abbrev OPath := List String

/-- `pathlib.Path.name`: the final segment (empty for the root). -/
def OPath.name (p : OPath) : String := p.getLastD ""

/-- `pathlib.Path.parent`: the path without its final segment. -/
def OPath.parent (p : OPath) : OPath := p.dropLast

/-- `pathlib.Path.parents`: the ancestors, nearest first, root last; the
ancestor at distance `i + 1` from the end is the first `length - (i + 1)`
segments. -/
def OPath.parents (p : OPath) : List OPath :=
  (List.range p.length).reverse.map (fun i => p.take i)

/-- Render a path for messages. -/
def OPath.toStr (p : OPath) : String := String.intercalate "/" p

mutual
/-- Python `repr` on `PyValue` (as far as the embedded code needs it). -/
def pyRepr : PyValue → String
  | .pyNone => "None"
  | .pyBool b => if b then "True" else "False"
  | .pyInt n => toString n
  | .pyStr s => "\x27" ++ s ++ "\x27"
  | .pyPath p => "PosixPath(" ++ OPath.toStr p ++ ")"
  | .pyList l => "[" ++ pyReprList l ++ "]"
  | .pyDict d => "\x7b" ++ pyReprDict d ++ "\x7d"

/-- Comma-separated `repr`s of the elements of a list. -/
def pyReprList : PyList → String
  | .nil => ""
  | .cons v .nil => pyRepr v
  | .cons v rest => pyRepr v ++ ", " ++ pyReprList rest

/-- Comma-separated `repr(key): repr(value)` pairs of a dictionary. -/
def pyReprDict : PyDict → String
  | .nil => ""
  | .cons k v .nil => "\x27" ++ k ++ "\x27: " ++ pyRepr v
  | .cons k v rest => "\x27" ++ k ++ "\x27: " ++ pyRepr v ++ ", " ++ pyReprDict rest
end

/-- Python `str` on `PyValue`: like `repr` except that strings print bare. -/
def pyStrFn : PyValue → String
  | .pyStr s => s
  | v => pyRepr v

/-- Python truthiness of a value (`if value:`). -/
def pyTruthy : PyValue → Bool
  | .pyNone => false
  | .pyBool b => b
  | .pyInt n => n != 0
  | .pyStr s => !s.isEmpty
  | .pyPath _ => true
  | .pyList l => !(l matches .nil)
  | .pyDict d => !(d matches .nil)

/-- Python `==` between a `PyValue` and a `str`: only a string compares equal. -/
def pyEqStr (v : PyValue) (s : String) : Bool :=
  match v with
  | .pyStr t => t == s
  | _ => false

/-- `isinstance(v, list)`. -/
def PyValue.isList : PyValue → Bool
  | .pyList _ => true
  | _ => false

/-- `isinstance(v, dict)`. -/
def PyValue.isDict : PyValue → Bool
  | .pyDict _ => true
  | _ => false

/-- An asset dictionary: string keys to Python values, in insertion order. -/
abbrev Record := List (String × PyValue)

/-- Dictionary lookup (`d[k]` or `d.get(k)`), first binding wins. -/
def Record.lookup (k : String) : Record → Option PyValue
  | [] => none
  | (k2, v) :: rest => if k2 == k then some v else Record.lookup k rest

/-- `k in d.keys()`. -/
def Record.hasKey (k : String) (r : Record) : Bool := (Record.lookup k r).isSome

/-- `d[k] = v`: overwrite the existing binding in place, else append. -/
def Record.set (r : Record) (k : String) (v : PyValue) : Record :=
  if Record.hasKey k r then
    r.map (fun kv => if kv.1 == k then (kv.1, v) else kv)
  else r ++ [(k, v)]

/-- `d.update(other)`: apply the bindings of `other` left to right. -/
def Record.updateWith (r other : Record) : Record :=
  other.foldl (fun acc kv => Record.set acc kv.1 kv.2) r

/-- The `path` entry of an asset dictionary, when it is a `Path` value. -/
def Record.getPath (r : Record) : Option OPath :=
  match Record.lookup "path" r with
  | some (.pyPath p) => some p
  | _ => none

/-- Modelled from the spec (error taxonomy of §7) and the use sites in
inventory.py and filters.py: the exception classes of
onyo/lib/exceptions.py (file not in the snapshot) next to the Python
builtins `ValueError` and `KeyError`. -/
inductive PyErr where
  | valueError (msg : String) : PyErr
  | keyError (key : String) : PyErr
  | notAnAsset (msg : String) : PyErr
  | noop (msg : String) : PyErr
  | invalidInventoryOp (msg : String) : PyErr
  | onyoInvalidFilter (msg : String) : PyErr
deriving DecidableEq

instance {ε α : Type} [DecidableEq ε] [DecidableEq α] : DecidableEq (Except ε α) := fun x y =>
  match x, y with
  | .ok a, .ok b => if h : a = b then isTrue (by rw [h]) else isFalse (by simp [h])
  | .error a, .error b => if h : a = b then isTrue (by rw [h]) else isFalse (by simp [h])
  | .ok _, .error _ => isFalse (by simp)
  | .error _, .ok _ => isFalse (by simp)

/-- Whether an error is the no-op signal (`NoopError`). -/
def PyErr.isNoop : PyErr → Bool
  | .noop _ => true
  | _ => false

/-- Whether an intent call raised. -/
def intentFailed : Except PyErr Unit → Bool
  | .error _ => true
  | .ok _ => false

/-- Modelled from the spec: `UNSET_VALUE` from onyo/lib/consts.py (file not
in the snapshot); the spec (§4.3, §8) writes the unset sentinel `<unset>`. -/
def UNSET_VALUE : String := "<unset>"

/-- An abstract interface to the `re` module: compiling a pattern either
fails (`re.error`) or yields a full-match predicate.  Nothing proved below
depends on what a successfully compiled pattern matches. -/
structure RegexEngine where
  compile : String → Option (String → Bool)

/-- `Filter._re_match`: full-match `text` against pattern `r`, a pattern
that does not compile counting as no match. -/
def reMatch (E : RegexEngine) (text r : String) : Bool :=
  match E.compile r with
  | none => false
  | some fullmatch => fullmatch text

/-- The `Filter` dataclass: a `key=value` expression split into its parts. -/
structure Filter where
  key : String
  value : String
deriving DecidableEq

/-- Split a character list at the first `=`, when there is one. -/
def splitFirstEq : List Char → Option (List Char × List Char)
  | [] => none
  | c :: rest =>
    if c = '=' then some ([], rest)
    else
      match splitFirstEq rest with
      | none => none
      | some (k, v) => some (c :: k, v)

/-- `Filter.__post_init__` together with `Filter._format`: build a filter
from a string, splitting at the first `=`; without any `=` the
construction raises `OnyoInvalidFilterError`. -/
def Filter.make (arg : String) : Except PyErr Filter :=
  match splitFirstEq arg.toList with
  | none => .error (.onyoInvalidFilter "Filters must be formatted as key=value")
  | some (k, v) => .ok ⟨k.asString, v.asString⟩

/-- `Filter.match`: match a filter against an asset dictionary.  The
translation returns `Except` because `asset[self.key]` in the type-tag and
empty-structure branches raises `KeyError` when the key is absent. -/
def Filter.matchFn (E : RegexEngine) (f : Filter) (asset : Record) : Except PyErr Bool :=
  if f.value == "<list>" || f.value == "<dict>" then
    match Record.lookup f.key asset with
    | none => .error (.keyError f.key)
    | some v => .ok (if f.value == "<list>" then v.isList else v.isDict)
  else if f.value == "[]" || f.value == "\x7b\x7d" then
    match Record.lookup f.key asset with
    | none => .error (.keyError f.key)
    | some v => .ok (pyStrFn v == f.value)
  else if asset.isEmpty && f.value == UNSET_VALUE then .ok true
  else if !(Record.hasKey f.key asset) && f.value == UNSET_VALUE then .ok true
  else if Record.hasKey f.key asset && f.value == UNSET_VALUE
      && ((Record.lookup f.key asset).any fun v => v == .pyNone || pyEqStr v "") then
    .ok true
  else if !(Record.hasKey f.key asset) || f.value == UNSET_VALUE then .ok false
  else
    match Record.lookup f.key asset with
    | none => .ok false
    | some v => .ok (reMatch E (pyStrFn v) f.value || pyEqStr v f.value)

/-- The truth value rule 3 of the spec describes for an unset-sentinel
filter on key `k`: empty record, absent key, or a null/empty-string
value. -/
def unsetCond (k : String) (asset : Record) : Bool :=
  asset.isEmpty ||
    match Record.lookup k asset with
    | none => true
    | some v => v == .pyNone || pyEqStr v ""

/-- Helper loop of `deduplicate`: the membership test against the `seen`
set of the Python list comprehension. -/
def dedupGo {α : Type} [DecidableEq α] (seen : List α) : List α → List α
  | [] => []
  | x :: xs => if x ∈ seen then dedupGo seen xs else x :: dedupGo (x :: seen) xs

/-- `deduplicate` from onyo/lib/utils.py: keep the first occurrence of each
value, drop the later ones; a falsy argument (`None`, the empty list) is
returned unchanged. -/
def deduplicate {α : Type} [DecidableEq α] : Option (List α) → Option (List α)
  | none => none
  | some l => if l.isEmpty then some l else some (dedupGo [] l)

/-- Reference function: the first occurrence of every value, in order.
Stated from the claim, to compare `deduplicate` against. -/
def keepFirst {α : Type} [DecidableEq α] : List α → List α
  | [] => []
  | x :: xs => x :: keepFirst (xs.filter (fun y => y ≠ x))
termination_by l => l.length
decreasing_by
  simp only [List.length_cons]
  exact Nat.lt_succ_of_le (List.length_filter_le _ _)

/-- The store facade (`OnyoRepo`, spec §6; onyo/lib/onyo.py is not in the
snapshot): path classification, content read, configuration lookup and
directory listing, as abstract functions.  `anchorFile` models the
class constant `OnyoRepo.ANCHOR_FILE`, the sentinel anchor entry name. -/
structure Repo where
  isAssetPath : OPath → Bool
  isInventoryPath : OPath → Bool
  isInventoryDir : OPath → Bool
  isAssetDir : OPath → Bool
  isOnyoPath : OPath → Bool
  pathExists : OPath → Bool
  getAssetContent : OPath → Record
  getConfig : String → Option String
  assetPaths : List OPath
  iterdir : OPath → List OPath
  anchorFile : String

/-- Failure of `str.format`: a placeholder key absent from the record
(Python `KeyError`, the first one hit), or a malformed template (Python
raises `ValueError` for an unbalanced brace). -/
inductive FmtErr where
  | missingKey (k : String) : FmtErr
  | badTemplate : FmtErr
deriving DecidableEq

/-- Scanner state of the `str.format` translation: plain text, just after
an opening brace, just after a closing brace, or inside a placeholder
field name. -/
inductive FmtState where
  | text : FmtState
  | sawOpen : FmtState
  | sawClose : FmtState
  | field (acc : List Char) : FmtState
deriving DecidableEq

/-- One-character-at-a-time scanner for `config_str.format(**asset)` on a
template of literal text, doubled braces and simple `\x7bkey\x7d`
placeholders.  A brace left open or closed without an opener is a
template error, as in Python. -/
def formatAux (r : Record) (st : FmtState) : List Char → Except FmtErr String
  | [] =>
    match st with
    | .text => .ok ""
    | _ => .error .badTemplate
  | c :: rest =>
    match st with
    | .text =>
      if c = '\x7b' then formatAux r .sawOpen rest
      else if c = '\x7d' then formatAux r .sawClose rest
      else (formatAux r .text rest).map (fun s => c.toString ++ s)
    | .sawOpen =>
      if c = '\x7b' then (formatAux r .text rest).map (fun s => "\x7b" ++ s)
      else if c = '\x7d' then .error .badTemplate
      else formatAux r (.field [c]) rest
    | .sawClose =>
      if c = '\x7d' then (formatAux r .text rest).map (fun s => "\x7d" ++ s)
      else .error .badTemplate
    | .field acc =>
      if c = '\x7d' then
        match Record.lookup acc.asString r with
        | none => .error (.missingKey acc.asString)
        | some v => (formatAux r .text rest).map (fun s => pyStrFn v ++ s)
      else formatAux r (.field (acc ++ [c])) rest

/-- `config_str.format(**asset)`. -/
def formatGo (r : Record) (l : List Char) : Except FmtErr String :=
  formatAux r .text l

/-- `Inventory.generate_asset_name`: read the naming template from the
configuration (a missing or empty value fails) and expand it against the
record; a placeholder without a record value fails naming that key. -/
def generate_asset_name (repo : Repo) (asset : Record) : Except PyErr String :=
  match repo.getConfig "onyo.assets.filename" with
  | none => .error (.valueError "Missing config onyo.assets.filename.")
  | some config_str =>
    if config_str.isEmpty then .error (.valueError "Missing config onyo.assets.filename.")
    else
      match formatGo asset config_str.toList with
      | .error (.missingKey k) =>
        .error (.valueError ("Asset missing value for required field " ++ k ++ "."))
      | .error .badTemplate =>
        .error (.valueError "Invalid naming template onyo.assets.filename.")
      | .ok name => .ok name

/-- A queued `InventoryOperation`: the kind from `OPERATIONS_MAPPING`
together with its operands tuple. -/
inductive Op where
  | newDirectories (p : OPath) : Op
  | newAssets (a : Record) : Op
  | removeAssets (x : Record ⊕ OPath) : Op
  | modifyAssets (old new : Record) : Op
  | renameAssets (src dst : OPath) : Op
  | removeDirectories (p : OPath) : Op
  | moveDirectories (src dst : OPath) : Op
  | renameDirectories (src dst : OPath) : Op
  | moveAssets (src dst : OPath) : Op
deriving DecidableEq

/-- Outcome of an intent method: the raised error (if any) next to the
operation queue as the call leaves it.  A queue already extended when an
exception propagates stays extended, exactly as `self.operations` does. -/
abbrev Intent := Except PyErr Unit × List Op

/-- `Inventory.add_directory`: validate, then enqueue the directory and its
missing ancestors (nearest first). -/
def add_directory (repo : Repo) (path : OPath) (ops : List Op) : Intent :=
  if !(repo.isInventoryPath path) then
    (.error (.valueError (OPath.toStr path ++ " is not a valid inventory path.")), ops)
  else if repo.pathExists path then
    (.error (.valueError (OPath.toStr path ++ " already exists.")), ops)
  else
    (.ok (), ops ++ [.newDirectories path]
      ++ ((OPath.parents path).filter (fun p => !(repo.pathExists p))).map .newDirectories)

/-- `Inventory.rename_directory`: `dst` is a plain name (resolved next to
`src`) or a path; an asset directory, a destination under another parent,
or an invalid/existing destination fail. -/
def rename_directory (repo : Repo) (src : OPath) (dst : String ⊕ OPath) (ops : List Op) : Intent :=
  if !(repo.isInventoryDir src) then
    (.error (.valueError ("Not an inventory directory: " ++ OPath.toStr src)), ops)
  else if repo.isAssetDir src then
    (.error (.valueError "Renaming an asset directory must be done via rename_asset."), ops)
  else
    let dst2 : OPath := match dst with
      | .inl s => OPath.parent src ++ [s]
      | .inr p => p
    if OPath.parent src ≠ OPath.parent dst2 then
      (.error (.invalidInventoryOp
        ("Cannot rename " ++ OPath.toStr src ++ " -> " ++ OPath.toStr dst2
          ++ ". Consider moving instead.")), ops)
    else if !(repo.isInventoryPath dst2) || repo.pathExists dst2 then
      (.error (.valueError ("Not a valid destination: " ++ OPath.toStr dst2)), ops)
    else (.ok (), ops ++ [.renameDirectories src dst2])

/-- `Inventory.add_asset`: validate the destination path, enqueue any
prerequisite directory operations (or the rename converting an existing
directory into an asset directory), then enqueue `new_assets`. -/
def add_asset (repo : Repo) (asset : Record) (ops : List Op) : Intent :=
  match Record.getPath asset with
  | none => (.error (.valueError "Unknown asset path"), ops)
  | some path =>
    if repo.isAssetPath path then
      (.error (.valueError ("Asset " ++ OPath.toStr path ++ " already exists.")), ops)
    else if !(repo.isInventoryPath path) then
      (.error (.valueError (OPath.toStr path ++ " is not a valid inventory path.")), ops)
    else
      let assetDirFlag : Bool := match Record.lookup "is_asset_directory" asset with
        | some v => pyTruthy v
        | none => false
      if assetDirFlag then
        if repo.isInventoryDir path then
          match generate_asset_name repo asset with
          | .error e => (.error e, ops)
          | .ok gname =>
            match rename_directory repo path (.inl gname) ops with
            | (.error e, ops1) => (.error e, ops1)
            | (.ok _, ops1) =>
              let asset2 := Record.set asset "path" (.pyPath (OPath.parent path ++ [gname]))
              (.ok (), ops1 ++ [.newAssets asset2])
        else
          match add_directory repo path ops with
          | (.error e, ops1) => (.error e, ops1)
          | (.ok _, ops1) => (.ok (), ops1 ++ [.newAssets asset])
      else if !(repo.isInventoryDir (OPath.parent path)) then
        match add_directory repo (OPath.parent path) ops with
        | (.error e, ops1) => (.error e, ops1)
        | (.ok _, ops1) => (.ok (), ops1 ++ [.newAssets asset])
      else (.ok (), ops ++ [.newAssets asset])

/-- `Inventory.remove_asset`: a path that does not resolve to a tracked
asset raises `NotAnAssetError`. -/
def remove_asset (repo : Repo) (asset : Record ⊕ OPath) (ops : List Op) : Intent :=
  let path? : Option OPath := match asset with
    | .inr p => some p
    | .inl a => Record.getPath a
  match path? with
  | none => (.error (.notAnAsset "No such asset: None"), ops)
  | some path =>
    if !(repo.isAssetPath path) then
      (.error (.notAnAsset ("No such asset: " ++ OPath.toStr path)), ops)
    else (.ok (), ops ++ [.removeAssets asset])

/-- `Inventory.move_asset`: source must be a tracked asset, the destination
an inventory directory other than the current parent. -/
def move_asset (repo : Repo) (src : Record ⊕ OPath) (dst : OPath) (ops : List Op) : Intent :=
  let path? : Option OPath := match src with
    | .inr p => some p
    | .inl a => Record.getPath a
  match path? with
  | none => (.error (.notAnAsset "No such asset: None"), ops)
  | some s =>
    if !(repo.isAssetPath s) then
      (.error (.notAnAsset ("No such asset: " ++ OPath.toStr s ++ ".")), ops)
    else if OPath.parent s = dst then
      (.error (.valueError ("Cannot move " ++ OPath.toStr s ++ ": Destination "
        ++ OPath.toStr dst ++ " is the current location.")), ops)
    else if !(repo.isInventoryDir dst) then
      (.error (.valueError ("Cannot move " ++ OPath.toStr s ++ ": Destination "
        ++ OPath.toStr dst ++ " is not in inventory directory.")), ops)
    else (.ok (), ops ++ [.moveAssets s dst])

/-- `Inventory.rename_asset`: the generated name is forced from the naming
template; an explicit truthy `name` must agree with it, a generated name
equal to the current one raises the no-op signal, an existing destination
fails, otherwise `rename_assets` is enqueued. -/
def rename_asset (repo : Repo) (asset : Record ⊕ OPath) (name : Option String) (ops : List Op) : Intent :=
  let path? : Option OPath := match asset with
    | .inl a => Record.getPath a
    | .inr p => some p
  match path? with
  | none => (.error (.valueError "No such asset: None"), ops)
  | some path =>
    if !(repo.isAssetPath path) then
      (.error (.valueError ("No such asset: " ++ OPath.toStr path)), ops)
    else
      match generate_asset_name repo
        (match asset with | .inl a => a | .inr _ => repo.getAssetContent path) with
      | .error e => (.error e, ops)
      | .ok generated_name =>
        let nameTruthy : Bool := match name with
          | some n => !n.isEmpty
          | none => false
        if nameTruthy && (name.getD "") ≠ generated_name then
          (.error (.valueError ("Renaming asset " ++ OPath.name path ++ " to "
            ++ name.getD "" ++ " is invalid. Config onyo.assets.filename suggests "
            ++ generated_name ++ " as its name")), ops)
        else
          let name2 := if nameTruthy then name.getD "" else generated_name
          if OPath.name path == name2 then
            (.error (.noop ("Cannot rename asset " ++ name2
              ++ ": This is already its name.")), ops)
          else
            let destination := OPath.parent path ++ [name2]
            if repo.pathExists destination then
              (.error (.valueError ("Cannot rename asset " ++ OPath.name path ++ " to "
                ++ OPath.toStr destination ++ ". Already exists.")), ops)
            else (.ok (), ops ++ [.renameAssets path destination])

/-- `Inventory.modify_asset`: enqueue `modify_assets` with (old, new), then
attempt the implied rename; only the no-op signal is swallowed, any other
error from the rename propagates with the modify operation already
queued. -/
def modify_asset (repo : Repo) (asset : Record ⊕ OPath) (content : Record) (ops : List Op) : Intent :=
  let path? : Option OPath := match asset with
    | .inl a => Record.getPath a
    | .inr p => some p
  match path? with
  | none => (.error (.valueError "No such asset: None"), ops)
  | some path =>
    if !(repo.isAssetPath path) then
      (.error (.valueError ("No such asset: " ++ OPath.toStr path)), ops)
    else
      let asset0 : Record := match asset with
        | .inl a => a
        | .inr _ => repo.getAssetContent path
      let new_asset := Record.updateWith asset0 content
      let ops1 := ops ++ [.modifyAssets asset0 new_asset]
      match rename_asset repo (.inl new_asset) none ops1 with
      | (.error (.noop _), ops2) => (.ok (), ops2)
      | other => other

/-- `Inventory.remove_directory`: an entry other than the anchor file and
onyo-internal paths makes the directory non-empty, which raises
`InvalidInventoryOperation`. -/
def remove_directory (repo : Repo) (directory : OPath) (ops : List Op) : Intent :=
  if !(repo.isInventoryDir directory) then
    (.error (.valueError ("Not an inventory directory: " ++ OPath.toStr directory)), ops)
  else if ((repo.iterdir directory).filter
      (fun p => OPath.name p != repo.anchorFile && !(repo.isOnyoPath p))) ≠ [] then
    (.error (.invalidInventoryOp ("Cannot remove inventory directory "
      ++ OPath.toStr directory ++ ": Not empty.")), ops)
  else (.ok (), ops ++ [.removeDirectories directory])

/-- `Inventory.move_directory`: both ends must be inventory directories and
moving into the own parent is the rename case, hence refused. -/
def move_directory (repo : Repo) (src dst : OPath) (ops : List Op) : Intent :=
  if !(repo.isInventoryDir src) then
    (.error (.valueError ("Not an inventory directory: " ++ OPath.toStr src)), ops)
  else if !(repo.isInventoryDir dst) then
    (.error (.valueError ("Destination is not an inventory directory: " ++ OPath.toStr dst)), ops)
  else if OPath.parent src = dst then
    (.error (.invalidInventoryOp ("Cannot move " ++ OPath.toStr src ++ " -> "
      ++ OPath.toStr dst ++ ". Consider renaming instead.")), ops)
  else (.ok (), ops ++ [.moveDirectories src dst])

/-- Modelled from the spec: the per-kind recorder functions
(onyo/lib/recorders.py is not in the snapshot).  Each kind yields one
kind-specific title and snippets naming the paths involved (spec §2
Operation Kind Table, §6 commit message layout). -/
def recordOp : Op → List (String × List String)
  | .newDirectories p => [("New directories:\n", ["- " ++ OPath.toStr p ++ "\n"])]
  | .newAssets a =>
    [("New assets:\n",
      ["- " ++ (match Record.getPath a with | some p => OPath.toStr p | none => "None") ++ "\n"])]
  | .removeAssets x =>
    [("Removed assets:\n",
      ["- " ++ (match x with
        | .inr p => OPath.toStr p
        | .inl a => match Record.getPath a with | some p => OPath.toStr p | none => "None") ++ "\n"])]
  | .modifyAssets _ n =>
    [("Modified assets:\n",
      ["- " ++ (match Record.getPath n with | some p => OPath.toStr p | none => "None") ++ "\n"])]
  | .renameAssets s d =>
    [("Renamed assets:\n", ["- " ++ OPath.toStr s ++ " -> " ++ OPath.toStr d ++ "\n"])]
  | .removeDirectories p => [("Removed directories:\n", ["- " ++ OPath.toStr p ++ "\n"])]
  | .moveDirectories s d =>
    [("Moved directories:\n", ["- " ++ OPath.toStr s ++ " -> " ++ OPath.toStr d ++ "\n"])]
  | .renameDirectories s d =>
    [("Renamed directories:\n", ["- " ++ OPath.toStr s ++ " -> " ++ OPath.toStr d ++ "\n"])]
  | .moveAssets s d =>
    [("Moved assets:\n", ["- " ++ OPath.toStr s ++ " -> " ++ OPath.toStr d ++ "\n"])]

/-- Modelled from the spec: the executors (onyo/lib/executors.py is not in
the snapshot) mutate the store and return the touched paths (§4.4).  The
store mutation is outside this embedding; the returned pair is
(paths to commit, paths to stage). -/
def execOp : Op → (List OPath × List OPath)
  | .newDirectories p => ([p], [])
  | .newAssets a => ((Record.getPath a).toList, [])
  | .removeAssets x =>
    ((match x with | .inr p => some p | .inl a => Record.getPath a).toList, [])
  | .modifyAssets _ n => ((Record.getPath n).toList, [])
  | .renameAssets s d => ([s, d], [])
  | .removeDirectories p => ([p], [])
  | .moveDirectories s d => ([s, d], [])
  | .renameDirectories s d => ([s, d], [])
  | .moveAssets s d => ([s, d], [])

/-- One step of building `operations_record`: a known title has the
snippets appended (`operations_record[k].extend(v)`), a new title is
appended at the end (`operations_record[k] = v`). -/
def addRecordEntry (rec : List (String × List String)) (k : String) (v : List String) :
    List (String × List String) :=
  if rec.any (fun ts => ts.1 == k) then
    rec.map (fun ts => if ts.1 == k then (ts.1, ts.2 ++ v) else ts)
  else rec ++ [(k, v)]

/-- The `operations_record` dictionary after the execution loop of
`Inventory.commit`: titles keyed in first-encounter order, snippets
concatenated in operation order. -/
def commitRecord (ops : List Op) : List (String × List String) :=
  ops.foldl (fun rec op => (recordOp op).foldl (fun r kv => addRecordEntry r kv.1 kv.2) rec) []

/-- The order in which the `for operation in self.operations` loop of
`Inventory.commit` executes the queue. -/
def commitExecutionOrder (ops : List Op) : List Op :=
  ops.foldl (fun acc op => acc ++ [op]) []

/-- The message `Inventory.commit` assembles.  `setIter` stands for the
iteration order of the CPython set in
`''.join(line for line in set(snippets))` (inventory.py line 152), which
CPython leaves unspecified (it depends on string hashing). -/
def commitMessage (setIter : List String → List String) (message : String) (ops : List Op) :
    String :=
  message ++ "\n\n--- Inventory Operations ---\n" ++
    String.join ((commitRecord ops).map (fun ts => ts.1 ++ String.join (setIter ts.2)))

/-- What CPython guarantees about iterating `set(l)`: every distinct
element exactly once, in some order. -/
def SetIterOK (setIter : List String → List String) : Prop :=
  ∀ l : List String, (setIter l).Nodup ∧ ∀ x, x ∈ setIter l ↔ x ∈ l

/-- A concrete admissible set-iteration order: first occurrences, reversed. -/
def setIterRev (l : List String) : List String := (dedupGo [] l).reverse

/-- The assembly rule the claim describes: snippets under each title in
first-encounter order with exact duplicates removed.  Stated from the
claim, to compare `commitMessage` against. -/
def claimedCommitMessage (message : String) (ops : List Op) : String :=
  message ++ "\n\n--- Inventory Operations ---\n" ++
    String.join ((commitRecord ops).map (fun ts => ts.1 ++ String.join (keepFirst ts.2)))

/-- `string.ascii_letters + string.digits`. -/
def ALPHANUM : List Char :=
  "abcdefghijklmnopqrstuvwxyzABCDEFGHIJKLMNOPQRSTUVWXYZ0123456789".toList

/-- The suffix after the last occurrence of `faux` in a character list,
when there is one.  `faux` cannot overlap itself, so the last occurrence
is well defined and agrees with the last split piece of a left-to-right
non-overlapping split. -/
def afterLastFaux : List Char → Option (List Char)
  | [] => none
  | c :: rest =>
    match afterLastFaux rest with
    | some suf => some suf
    | none =>
      match c :: rest with
      | 'f' :: 'a' :: 'u' :: 'x' :: suffix => some suffix
      | _ => none

/-- `str(x.name).split('faux')[-1]`: the part after the last occurrence of
`faux` (the whole name when `faux` does not occur). -/
def fauxSuffix (s : String) : String :=
  match afterLastFaux s.toList with
  | some suf => suf.asString
  | none => s

/-- The `repo_faux_serials` comprehension of `Inventory.get_faux_serials`. -/
def repoFauxSerials (repo : Repo) : List String :=
  repo.assetPaths.map (fun p => fauxSuffix (OPath.name p))

/-- The `while len(faux_serials) < num` loop of `get_faux_serials`.  `rng i`
is the `i`-th draw of `random.choices(alphanum, k=length)`; the set of
collected serials is the accumulator list (insertion order, no
duplicates); `fuel` bounds the number of iterations, `none` meaning the
loop has not finished within the bound. -/
def fauxLoop (repoSuffixes : List String) (rng : Nat → String) (num : Nat) :
    Nat → Nat → List String → Option (List String)
  | 0, _, acc => if acc.length < num then none else some acc
  | fuel + 1, i, acc =>
    if acc.length < num then
      let serial := rng i
      fauxLoop repoSuffixes rng num fuel (i + 1)
        (if serial ∈ repoSuffixes then acc
         else if ("faux" ++ serial) ∈ acc then acc
         else acc ++ ["faux" ++ serial])
    else some acc

/-- `Inventory.get_faux_serials`: reject `length < 4` and `num < 1`, then
draw random serials until `num` fresh ones are collected, each prefixed
with the literal marker `faux`. -/
def get_faux_serials (repo : Repo) (rng : Nat → String) (fuel : Nat) (length num : Int) :
    Except PyErr (Option (List String)) :=
  if length < 4 then
    .error (.valueError "The length of faux serial numbers must be >= 4.")
  else if num < 1 then
    .error (.valueError "The length of faux serial numbers must be >= 1.")
  else .ok (fauxLoop (repoFauxSerials repo) rng num.toNat fuel 0 [])

/-- Whether an intent call raised the no-op signal. -/
def raisedNoop : Except PyErr Unit → Bool
  | .error e => e.isNoop
  | .ok _ => false

/-- The snippets recorded under title `t` by a flat list of recorder
entries, in encounter order. -/
def entriesFor (t : String) (es : List (String × List String)) : List String :=
  ((es.filter (fun kv => kv.1 == t)).map Prod.snd).flatten

/-- Reference function for `commitRecord`: one entry per distinct title in
first-encounter order, holding all snippets recorded under that title in
operation order. -/
def groupTitles (es : List (String × List String)) : List (String × List String) :=
  (keepFirst (es.map Prod.fst)).map (fun t => (t, entriesFor t es))

/-- A degenerate regex engine on which every pattern fails to compile.  The
statements that use it never reach the regex branch, or only exercise the
malformed-pattern case. -/
def nullEngine : RegexEngine := ⟨fun _ => none⟩

/-- Concrete store: one tracked asset `x` whose content expands under the
template `\x7bt\x7d` back to the name `x`. -/
def repoW : Repo where
  isAssetPath := fun p => p = ["x"]
  isInventoryPath := fun _ => true
  isInventoryDir := fun p => p = []
  isAssetDir := fun _ => false
  isOnyoPath := fun _ => false
  pathExists := fun p => p = [] ∨ p = ["x"]
  getAssetContent := fun _ => [("path", .pyPath ["x"]), ("t", .pyStr "x")]
  getConfig := fun k => if k = "onyo.assets.filename" then some "\x7bt\x7d" else none
  assetPaths := [["x"]]
  iterdir := fun _ => []
  anchorFile := ".anchor"

/-- Concrete store: one tracked asset `x` but no naming configuration, so
the implied rename inside `modify_asset` fails hard. -/
def repoCfgNone : Repo where
  isAssetPath := fun p => p = ["x"]
  isInventoryPath := fun _ => true
  isInventoryDir := fun p => p = []
  isAssetDir := fun _ => false
  isOnyoPath := fun _ => false
  pathExists := fun p => p = [] ∨ p = ["x"]
  getAssetContent := fun _ => [("path", .pyPath ["x"]), ("t", .pyStr "x")]
  getConfig := fun _ => none
  assetPaths := [["x"]]
  iterdir := fun _ => []
  anchorFile := ".anchor"

/-- Concrete store on which every path classification is negative. -/
def repoFail : Repo where
  isAssetPath := fun _ => false
  isInventoryPath := fun _ => false
  isInventoryDir := fun _ => false
  isAssetDir := fun _ => false
  isOnyoPath := fun _ => false
  pathExists := fun _ => false
  getAssetContent := fun _ => []
  getConfig := fun _ => none
  assetPaths := []
  iterdir := fun _ => []
  anchorFile := ".anchor"

/-- Concrete store for the add-directory/add-asset/commit scenario of the
spec: an empty inventory whose root exists. -/
def repoScn : Repo where
  isAssetPath := fun _ => false
  isInventoryPath := fun p => p ≠ []
  isInventoryDir := fun p => p = []
  isAssetDir := fun _ => false
  isOnyoPath := fun _ => false
  pathExists := fun p => p = []
  getAssetContent := fun _ => []
  getConfig := fun _ => none
  assetPaths := []
  iterdir := fun _ => []
  anchorFile := ".anchor"

/-- The laptop record of the scenario. -/
def assetScn : Record :=
  [("type", .pyStr "laptop"), ("make", .pyStr "apple"), ("model", .pyStr "macbookpro"),
   ("serial", .pyStr "0"), ("path", .pyPath ["lab", "laptop_apple_macbookpro.0"])]

/-- The queue after `add_directory("lab/")` and then `add_asset(...)`. -/
def scnQueue : List Op := (add_asset repoScn assetScn (add_directory repoScn ["lab"] []).2).2

/-- Concrete store: a tracked inventory directory `d` holding only its
anchor entry. -/
def repoDir : Repo where
  isAssetPath := fun _ => false
  isInventoryPath := fun _ => true
  isInventoryDir := fun p => p = ["d"] ∨ p = []
  isAssetDir := fun _ => false
  isOnyoPath := fun _ => false
  pathExists := fun p => p = ["d"] ∨ p = []
  getAssetContent := fun _ => []
  getConfig := fun _ => none
  assetPaths := []
  iterdir := fun p => if p = ["d"] then [["d", ".anchor"]] else []
  anchorFile := ".anchor"

/-- Concrete store: one asset whose name carries the placeholder suffix
`aaaa`. -/
def repoFaux : Repo where
  isAssetPath := fun _ => false
  isInventoryPath := fun _ => true
  isInventoryDir := fun p => p = []
  isAssetDir := fun _ => false
  isOnyoPath := fun _ => false
  pathExists := fun p => p = []
  getAssetContent := fun _ => []
  getConfig := fun _ => none
  assetPaths := [["laptop_fauxaaaa"]]
  iterdir := fun _ => []
  anchorFile := ".anchor"

/-- A concrete random stream of 4-character alphanumeric draws. -/
def rngW (i : Nat) : String := ["aaaa", "aaab", "aaac", "aaad", "aaae"].getD i "zzzz"

/-- The list `get_faux_serials` collects on `repoFaux` with `rngW`. -/
def fauxResult : List String :=
  match get_faux_serials repoFaux rngW 16 4 5 with
  | .ok (some l) => l
  | _ => []

/-- Two queued directory creations with distinct snippets under one title. -/
def opsTwoDirs : List Op := [.newDirectories ["a"], .newDirectories ["b"]]

theorem keepFirst_nil {α : Type} [DecidableEq α] : keepFirst ([] : List α) = [] := by
  simp [keepFirst]

theorem keepFirst_cons {α : Type} [DecidableEq α] (x : α) (xs : List α) :
    keepFirst (x :: xs) = x :: keepFirst (xs.filter (fun y => y ≠ x)) := by
  simp [keepFirst]

theorem mem_keepFirst {α : Type} [DecidableEq α] (a : α) (l : List α) :
    a ∈ keepFirst l ↔ a ∈ l := by
  induction l using keepFirst.induct with
  | case1 => simp [keepFirst_nil]
  | case2 x xs ih =>
    rw [keepFirst_cons, List.mem_cons, ih, List.mem_filter, List.mem_cons]
    by_cases hax : a = x
    · simp [hax]
    · simp [hax]

theorem nodup_keepFirst {α : Type} [DecidableEq α] (l : List α) :
    (keepFirst l).Nodup := by
  induction l using keepFirst.induct with
  | case1 => simp [keepFirst_nil]
  | case2 x xs ih =>
    rw [keepFirst_cons]
    refine List.nodup_cons.mpr ⟨?_, ih⟩
    rw [mem_keepFirst]
    simp [List.mem_filter]

theorem keepFirst_sublist {α : Type} [DecidableEq α] (l : List α) :
    List.Sublist (keepFirst l) l := by
  induction l using keepFirst.induct with
  | case1 => simp [keepFirst_nil]
  | case2 x xs ih =>
    rw [keepFirst_cons]
    exact List.Sublist.cons₂ x (ih.trans (List.filter_sublist xs))

theorem keepFirst_of_nodup {α : Type} [DecidableEq α] (l : List α) (h : l.Nodup) :
    keepFirst l = l := by
  induction l using keepFirst.induct with
  | case1 => simp [keepFirst_nil]
  | case2 x xs ih =>
    rw [keepFirst_cons]
    rcases List.nodup_cons.mp h with ⟨hx, hxs⟩
    have hf : xs.filter (fun y => y ≠ x) = xs := by
      apply List.filter_eq_self.mpr
      intro a ha
      simp only [ne_eq, decide_eq_true_eq]
      exact fun e => hx (e ▸ ha)
    rw [hf] at ih ⊢
    rw [ih hxs]

theorem keepFirst_idem {α : Type} [DecidableEq α] (l : List α) :
    keepFirst (keepFirst l) = keepFirst l :=
  keepFirst_of_nodup _ (nodup_keepFirst l)

theorem dedupGo_eq_keepFirst {α : Type} [DecidableEq α] (seen : List α) (l : List α) :
    dedupGo seen l = keepFirst (l.filter (fun x => x ∉ seen)) := by
  induction l generalizing seen with
  | nil => simp [dedupGo, keepFirst_nil]
  | cons x xs ih =>
    by_cases hx : x ∈ seen
    · rw [show dedupGo seen (x :: xs) = dedupGo seen xs from by simp [dedupGo, hx]]
      rw [ih seen]
      congr 1
      simp [List.filter_cons, hx]
    · rw [show dedupGo seen (x :: xs) = x :: dedupGo (x :: seen) xs from by
        simp [dedupGo, hx]]
      rw [ih (x :: seen)]
      rw [show (x :: xs).filter (fun y => y ∉ seen) = x :: xs.filter (fun y => y ∉ seen) from by
        simp [List.filter_cons, hx]]
      rw [keepFirst_cons]
      congr 1
      rw [List.filter_filter]
      congr 1
      apply List.filter_congr
      intro a _
      by_cases hax : a = x
      · simp [hax]
      · simp [hax, List.mem_cons]

theorem deduplicate_some {α : Type} [DecidableEq α] (l : List α) :
    deduplicate (some l) = some (keepFirst l) := by
  cases l with
  | nil => simp [deduplicate, keepFirst_nil]
  | cons x xs =>
    simp only [deduplicate, List.isEmpty_cons, Bool.false_eq_true, if_false]
    rw [dedupGo_eq_keepFirst]
    congr 2
    apply List.filter_eq_self.mpr
    intro a _
    simp

/-- C9: `deduplicate` keeps the first occurrence of every value in place,
drops all later occurrences and preserves the relative order of what it
keeps (`keepFirst` is that reference function, and the result is a
duplicate-free sublist with the same members); it is idempotent, and
`deduplicate(None)` is `None`. -/
theorem C9_deduplicate_first_occurrence {α : Type} [DecidableEq α] (l : List α) :
    deduplicate (some l) = some (keepFirst l) ∧
    List.Sublist (keepFirst l) l ∧
    (keepFirst l).Nodup ∧
    (∀ a, a ∈ keepFirst l ↔ a ∈ l) ∧
    deduplicate (deduplicate (some l)) = deduplicate (some l) ∧
    deduplicate (none : Option (List α)) = none := by
  refine ⟨deduplicate_some l, keepFirst_sublist l, nodup_keepFirst l,
    fun a => mem_keepFirst a l, ?_, rfl⟩
  rw [deduplicate_some l, deduplicate_some (keepFirst l), keepFirst_idem]

theorem splitFirstEq_spec (l : List Char) (h : '=' ∈ l) :
    ∃ k v : List Char, splitFirstEq l = some (k, v) ∧
      k = l.takeWhile (fun c => c ≠ '=') ∧
      v = (l.dropWhile (fun c => c ≠ '=')).tail ∧
      l = k ++ '=' :: v ∧ '=' ∉ k := by
  induction l with
  | nil => cases h
  | cons c rest ih =>
    by_cases hc : c = '='
    · subst hc
      refine ⟨[], rest, ?_, ?_, ?_, rfl, by simp⟩
      · simp [splitFirstEq]
      · simp [List.takeWhile_cons]
      · simp [List.dropWhile_cons]
    · have hrest : '=' ∈ rest := by
        rcases List.mem_cons.mp h with h1 | h1
        · exact absurd h1.symm hc
        · exact h1
      rcases ih hrest with ⟨k, v, hsplit, hk, hv, hl, hnk⟩
      refine ⟨c :: k, v, ?_, ?_, ?_, ?_, ?_⟩
      · simp [splitFirstEq, hc, hsplit]
      · simp [List.takeWhile_cons, hc, hk]
      · simp [List.dropWhile_cons, hc, hv]
      · rw [List.cons_append, ← hl]
      · simp only [List.mem_cons, not_or]
        exact ⟨fun e => hc e.symm, hnk⟩

/-- C10: building a `Filter` from a string holding at least one `=` splits
at the first `=` only: the key is everything strictly before the first
`=` (so the key never contains `=`), and the value is the entire
remainder, which may itself contain further `=` characters. -/
theorem C10_filter_splits_at_first_eq (s : String) (h : '=' ∈ s.toList) :
    ∃ k v : String, Filter.make s = .ok ⟨k, v⟩ ∧
      k.toList = s.toList.takeWhile (fun c => c ≠ '=') ∧
      v.toList = (s.toList.dropWhile (fun c => c ≠ '=')).tail ∧
      '=' ∉ k.toList ∧
      s.toList = k.toList ++ '=' :: v.toList := by
  rcases splitFirstEq_spec s.toList h with ⟨k, v, hsplit, hk, hv, hl, hnk⟩
  refine ⟨k.asString, v.asString, ?_, ?_, ?_, ?_, ?_⟩
  · unfold Filter.make
    rw [hsplit]
  · rw [List.toList_asString, hk]
  · rw [List.toList_asString, hv]
  · rw [List.toList_asString]; exact hnk
  · rw [List.toList_asString, List.toList_asString]; exact hl

/-- Witness for C10 at the concrete input `a=b=c`. -/
theorem C10_filter_splits_at_first_eq_witness :
    ('=' ∈ "a=b=c".toList) ∧
    (∃ k v : String, Filter.make "a=b=c" = .ok ⟨k, v⟩ ∧
      k.toList = "a=b=c".toList.takeWhile (fun c => c ≠ '=') ∧
      v.toList = ("a=b=c".toList.dropWhile (fun c => c ≠ '=')).tail ∧
      '=' ∉ k.toList ∧
      "a=b=c".toList = k.toList ++ '=' :: v.toList) :=
  ⟨by decide, C10_filter_splits_at_first_eq "a=b=c" (by decide)⟩

/-- C6: the filter built from `serial=<unset>` matches exactly the records
that are empty, lack the key `serial`, or bind it to null or the empty
string (`unsetCond` is that predicate); in particular it does not match a
record whose `serial` value is the string `0`. -/
theorem C6_serial_unset_filter :
    Filter.make "serial=<unset>" = .ok ⟨"serial", "<unset>"⟩ ∧
    (∀ (E : RegexEngine) (r : Record),
      Filter.matchFn E ⟨"serial", "<unset>"⟩ r = .ok (unsetCond "serial" r)) ∧
    (∀ E : RegexEngine,
      Filter.matchFn E ⟨"serial", "<unset>"⟩ [("serial", .pyStr "0")] = .ok false) := by
  refine ⟨rfl, ?_, fun E => rfl⟩
  intro E r
  cases r with
  | nil => rfl
  | cons hd tl =>
    cases hr : Record.lookup "serial" (hd :: tl) with
    | none =>
      simp [Filter.matchFn, unsetCond, UNSET_VALUE, Record.hasKey, hr]
    | some v =>
      by_cases hveq : (v == PyValue.pyNone || pyEqStr v "") = true
      · simp [Filter.matchFn, unsetCond, UNSET_VALUE, Record.hasKey, hr, hveq, Option.any]
      · simp only [Bool.not_eq_true] at hveq
        simp [Filter.matchFn, unsetCond, UNSET_VALUE, Record.hasKey, hr, hveq, Option.any]

/-- C3 (amended): a filter whose value is neither a type-tag, an
empty-structure literal nor the unset sentinel returns `False` (no error)
on a record lacking the key; for a type-tag or empty-structure value the
same lookup raises `KeyError`; and a pattern that fails to compile makes
the regex test a non-match instead of an error. -/
theorem C3_absent_key_behaviour :
    (∀ (E : RegexEngine) (f : Filter) (r : Record),
      f.value ≠ "<list>" → f.value ≠ "<dict>" → f.value ≠ "[]" → f.value ≠ "\x7b\x7d" →
      f.value ≠ UNSET_VALUE → Record.hasKey f.key r = false →
      Filter.matchFn E f r = .ok false) ∧
    (∀ (E : RegexEngine) (f : Filter) (r : Record),
      (f.value = "<list>" ∨ f.value = "<dict>" ∨ f.value = "[]" ∨ f.value = "\x7b\x7d") →
      Record.hasKey f.key r = false →
      Filter.matchFn E f r = .error (.keyError f.key)) ∧
    (∀ (E : RegexEngine) (text pat : String),
      E.compile pat = none → reMatch E text pat = false) := by
  refine ⟨?_, ?_, ?_⟩
  · intro E f r h1 h2 h3 h4 h5 hkey
    have hnone : Record.lookup f.key r = none := by
      simp [Record.hasKey] at hkey; exact hkey
    simp only [UNSET_VALUE] at h5
    simp [Filter.matchFn, h1, h2, h3, h4, h5, Record.hasKey, hnone, UNSET_VALUE]
  · intro E f r hval hkey
    have hnone : Record.lookup f.key r = none := by
      simp [Record.hasKey] at hkey; exact hkey
    rcases hval with h | h | h | h <;> simp [Filter.matchFn, h, hnone]
  · intro E text pat h
    simp [reMatch, h]

/-- C3 counterexample: on the empty record, the filter `serial=<list>`
raises `KeyError` instead of returning a non-match. -/
theorem C3_absent_key_counterexample :
    Filter.matchFn nullEngine ⟨"serial", "<list>"⟩ [] = .error (.keyError "serial") ∧
    Filter.matchFn nullEngine ⟨"serial", "<list>"⟩ [] ≠ .ok false :=
  ⟨rfl, by decide⟩

/-- Witness for C3 at a concrete absent key. -/
theorem C3_absent_key_behaviour_witness :
    Filter.matchFn nullEngine ⟨"serial", "x"⟩ [] = .ok false :=
  C3_absent_key_behaviour.1 nullEngine ⟨"serial", "x"⟩ []
    (by decide) (by decide) (by decide) (by decide) (by decide) (by decide)

theorem generate_asset_name_no_noop (repo : Repo) (a : Record) (e : PyErr)
    (h : generate_asset_name repo a = .error e) : e.isNoop = false := by
  unfold generate_asset_name at h
  split at h
  · injection h with he; rw [← he]; rfl
  · split at h
    · injection h with he; rw [← he]; rfl
    · split at h
      · injection h with he; rw [← he]; rfl
      · injection h with he; rw [← he]; rfl
      · exact Except.noConfusion h

/-- C4: for a tracked asset, `rename_asset` without an explicit name raises
the no-op signal exactly when the naming template expands to the current
file name; and with an explicit name the no-op signal still implies that
the generated name reproduces the current one (every other failure is a
hard error, a different `PyErr` constructor). -/
theorem C4_rename_asset_noop_iff (repo : Repo) (p : OPath) (ops : List Op)
    (h : repo.isAssetPath p = true) :
    (raisedNoop (rename_asset repo (.inr p) none ops).1 = true ↔
      generate_asset_name repo (repo.getAssetContent p) = .ok (OPath.name p)) ∧
    (∀ nm, raisedNoop (rename_asset repo (.inr p) (some nm) ops).1 = true →
      generate_asset_name repo (repo.getAssetContent p) = .ok (OPath.name p)) := by
  constructor
  · unfold rename_asset
    cases hg : generate_asset_name repo (repo.getAssetContent p) with
    | error e =>
      simp [h, hg, raisedNoop, generate_asset_name_no_noop repo _ e hg]
    | ok g =>
      simp only [h, Bool.not_true, Bool.false_eq_true, if_false, hg]
      by_cases hn : OPath.name p = g
      · simp [hn, raisedNoop, PyErr.isNoop]
      · have hbeq : (OPath.name p == g) = false := by
          simp [hn]
        rw [hbeq]
        simp only [Bool.false_eq_true, if_false]
        by_cases hex : repo.pathExists (OPath.parent p ++ [g]) = true <;>
          · simp [hex, raisedNoop, PyErr.isNoop, Except.ok.injEq]
            exact fun e => hn e.symm
  · intro nm
    unfold rename_asset
    cases hg : generate_asset_name repo (repo.getAssetContent p) with
    | error e =>
      simp [h, hg, raisedNoop, generate_asset_name_no_noop repo _ e hg]
    | ok g =>
      simp only [h, Bool.not_true, Bool.false_eq_true, if_false, hg]
      by_cases hemp : nm.isEmpty
      · simp only [hemp, Bool.not_true, Bool.false_and, Bool.false_eq_true, if_false,
          if_pos rfl]
        by_cases hn : OPath.name p = g
        · intro _
          rw [hn]
        · have hbeq : (OPath.name p == g) = false := by simp [hn]
          rw [hbeq]
          simp only [Bool.false_eq_true, if_false]
          by_cases hex : repo.pathExists (OPath.parent p ++ [g]) = true <;>
            simp [hex, raisedNoop, PyErr.isNoop]
      · by_cases hnm : nm = g
        · subst hnm
          simp only [hemp, Bool.not_false, Bool.true_and, Option.getD_some, ne_eq,
            not_true_eq_false, decide_False, Bool.false_eq_true, if_false, if_true]
          by_cases hn : OPath.name p = nm
          · intro _
            rw [hn]
          · have hbeq : (OPath.name p == nm) = false := by simp [hn]
            rw [hbeq]
            simp only [Bool.false_eq_true, if_false]
            by_cases hex : repo.pathExists (OPath.parent p ++ [nm]) = true <;>
              simp [hex, raisedNoop, PyErr.isNoop]
        · simp [hemp, hnm, raisedNoop, PyErr.isNoop]

/-- Witness for C4: on `repoW` the template expands to the current name
`x`, so the no-op signal is raised. -/
theorem C4_rename_asset_noop_iff_witness :
    repoW.isAssetPath ["x"] = true ∧
    raisedNoop (rename_asset repoW (.inr ["x"]) none []).1 = true :=
  ⟨by decide, (C4_rename_asset_noop_iff repoW ["x"] [] (by decide)).1.mpr (by decide)⟩

/-- C7: for a tracked inventory directory, `remove_directory` fails with
the structural-operation error and an unchanged queue exactly when some
entry of the directory is neither the anchor file nor an onyo-internal
path; otherwise it enqueues exactly one `remove_directories` operation. -/
theorem C7_remove_directory_empty_iff (repo : Repo) (d : OPath) (ops : List Op)
    (h : repo.isInventoryDir d = true) :
    (((remove_directory repo d ops).1 = .error (.invalidInventoryOp
        ("Cannot remove inventory directory " ++ OPath.toStr d ++ ": Not empty.")) ∧
      (remove_directory repo d ops).2 = ops) ↔
      ∃ q ∈ repo.iterdir d, OPath.name q ≠ repo.anchorFile ∧ repo.isOnyoPath q = false) ∧
    ((¬ ∃ q ∈ repo.iterdir d, OPath.name q ≠ repo.anchorFile ∧ repo.isOnyoPath q = false) →
      remove_directory repo d ops = (.ok (), ops ++ [.removeDirectories d])) := by
  unfold remove_directory
  rw [if_neg (by simp [h])]
  by_cases hf : (repo.iterdir d).filter
      (fun q => OPath.name q != repo.anchorFile && !(repo.isOnyoPath q)) = []
  · rw [if_neg (by simp [hf])]
    have hall := List.filter_eq_nil_iff.mp hf
    constructor
    · constructor
      · rintro ⟨h1, -⟩
        exact Except.noConfusion h1
      · rintro ⟨q, hq, hname, honyo⟩
        exact absurd (by simp [hname, honyo] : (OPath.name q != repo.anchorFile
          && !(repo.isOnyoPath q)) = true) (by simpa using hall q hq)
    · intro _
      rfl
  · rw [if_pos hf]
    constructor
    · constructor
      · intro _
        obtain ⟨q, hq⟩ := List.exists_mem_of_ne_nil _ hf
        rw [List.mem_filter] at hq
        refine ⟨q, hq.1, ?_, ?_⟩
        · have := hq.2
          simp only [Bool.and_eq_true, bne_iff_ne, ne_eq] at this
          exact this.1
        · have := hq.2
          simp only [Bool.and_eq_true, Bool.not_eq_true'] at this
          exact this.2
      · intro _
        exact ⟨rfl, rfl⟩
    · intro hno
      exfalso
      apply hno
      obtain ⟨q, hq⟩ := List.exists_mem_of_ne_nil _ hf
      rw [List.mem_filter] at hq
      refine ⟨q, hq.1, ?_, ?_⟩
      · have := hq.2
        simp only [Bool.and_eq_true, bne_iff_ne, ne_eq] at this
        exact this.1
      · have := hq.2
        simp only [Bool.and_eq_true, Bool.not_eq_true'] at this
        exact this.2

/-- Witness for C7: a directory holding only its anchor entry is removed
(one operation enqueued). -/
theorem C7_remove_directory_empty_iff_witness :
    repoDir.isInventoryDir ["d"] = true ∧
    remove_directory repoDir ["d"] [] = (.ok (), [.removeDirectories ["d"]]) :=
  ⟨by decide,
    (C7_remove_directory_empty_iff repoDir ["d"] [] (by decide)).2 (by decide)⟩

theorem add_directory_err_queue (repo : Repo) (p : OPath) (ops : List Op) :
    intentFailed (add_directory repo p ops).1 = true → (add_directory repo p ops).2 = ops := by
  unfold add_directory
  split_ifs <;> simp [intentFailed]

theorem rename_directory_err_queue (repo : Repo) (src : OPath) (dst : String ⊕ OPath)
    (ops : List Op) :
    intentFailed (rename_directory repo src dst ops).1 = true →
      (rename_directory repo src dst ops).2 = ops := by
  unfold rename_directory
  rcases dst with s | q <;> dsimp only <;> split_ifs <;> simp [intentFailed]

theorem remove_asset_err_queue (repo : Repo) (x : Record ⊕ OPath) (ops : List Op) :
    intentFailed (remove_asset repo x ops).1 = true → (remove_asset repo x ops).2 = ops := by
  unfold remove_asset
  rcases x with a | p
  · dsimp only
    cases hgp : Record.getPath a with
    | none => simp [hgp, intentFailed]
    | some q => simp only [hgp]; split_ifs <;> simp [intentFailed]
  · dsimp only
    split_ifs <;> simp [intentFailed]

theorem move_asset_err_queue (repo : Repo) (x : Record ⊕ OPath) (dst : OPath) (ops : List Op) :
    intentFailed (move_asset repo x dst ops).1 = true → (move_asset repo x dst ops).2 = ops := by
  unfold move_asset
  rcases x with a | p
  · dsimp only
    cases hgp : Record.getPath a with
    | none => simp [hgp, intentFailed]
    | some q => simp only [hgp]; split_ifs <;> simp [intentFailed]
  · dsimp only
    split_ifs <;> simp [intentFailed]

theorem remove_directory_err_queue (repo : Repo) (d : OPath) (ops : List Op) :
    intentFailed (remove_directory repo d ops).1 = true →
      (remove_directory repo d ops).2 = ops := by
  unfold remove_directory
  split_ifs <;> simp [intentFailed]

theorem move_directory_err_queue (repo : Repo) (src dst : OPath) (ops : List Op) :
    intentFailed (move_directory repo src dst ops).1 = true →
      (move_directory repo src dst ops).2 = ops := by
  unfold move_directory
  split_ifs <;> simp [intentFailed]

theorem rename_asset_err_queue (repo : Repo) (x : Record ⊕ OPath) (name : Option String)
    (ops : List Op) :
    intentFailed (rename_asset repo x name ops).1 = true →
      (rename_asset repo x name ops).2 = ops := by
  unfold rename_asset
  rcases x with a | p <;> dsimp only
  · cases hgp : Record.getPath a with
    | none => simp [hgp, intentFailed]
    | some q =>
      simp only [hgp]
      by_cases hap : repo.isAssetPath q
      · simp only [hap, Bool.not_true, Bool.false_eq_true, if_false]
        cases hg : generate_asset_name repo a with
        | error e => simp [hg, intentFailed]
        | ok g =>
          simp only [hg]
          split_ifs <;> simp [intentFailed]
      · simp [hap, intentFailed]
  · by_cases hap : repo.isAssetPath p
    · simp only [hap, Bool.not_true, Bool.false_eq_true, if_false]
      cases hg : generate_asset_name repo (repo.getAssetContent p) with
      | error e => simp [hg, intentFailed]
      | ok g =>
        simp only [hg]
        split_ifs <;> simp [intentFailed]
    · simp [hap, intentFailed]

theorem add_asset_err_queue (repo : Repo) (a : Record) (ops : List Op) :
    intentFailed (add_asset repo a ops).1 = true → (add_asset repo a ops).2 = ops := by
  unfold add_asset
  cases hgp : Record.getPath a with
  | none => simp [intentFailed]
  | some path =>
    simp only []
    split_ifs with h1 h2 h3 h4 h5
    · simp [intentFailed]
    · simp [intentFailed]
    · cases hg : generate_asset_name repo a with
      | error e => simp [intentFailed]
      | ok g =>
        rcases hrd : rename_directory repo path (.inl g) ops with ⟨res, ops1⟩
        have hq := rename_directory_err_queue repo path (.inl g) ops
        rw [hrd] at hq
        cases res with
        | error e =>
          dsimp only
          rw [hrd]
          intro _
          exact hq rfl
        | ok u =>
          dsimp only
          rw [hrd]
          simp [intentFailed]
    · rcases hq0 : add_directory repo path ops with ⟨res, ops1⟩
      have hq := add_directory_err_queue repo path ops
      rw [hq0] at hq
      cases res with
      | error e =>
        dsimp only
        intro _
        exact hq rfl
      | ok u =>
        simp [intentFailed]
    · rcases hq0 : add_directory repo (OPath.parent path) ops with ⟨res, ops1⟩
      have hq := add_directory_err_queue repo (OPath.parent path) ops
      rw [hq0] at hq
      cases res with
      | error e =>
        dsimp only
        intro _
        exact hq rfl
      | ok u =>
        simp [intentFailed]
    · simp [intentFailed]

theorem modify_asset_err_queue (repo : Repo) (x : Record ⊕ OPath) (content : Record)
    (ops : List Op) :
    intentFailed (modify_asset repo x content ops).1 = true →
      (modify_asset repo x content ops).2 = ops ∨
      ∃ old new, (modify_asset repo x content ops).2 = ops ++ [.modifyAssets old new] := by
  unfold modify_asset
  have core : ∀ (path : OPath) (asset0 : Record),
      intentFailed (match rename_asset repo (.inl (Record.updateWith asset0 content))
          none (ops ++ [Op.modifyAssets asset0 (Record.updateWith asset0 content)]) with
        | (.error (.noop _), ops2) => ((.ok () : Except PyErr Unit), ops2)
        | other => other).1 = true →
      (match rename_asset repo (.inl (Record.updateWith asset0 content))
          none (ops ++ [Op.modifyAssets asset0 (Record.updateWith asset0 content)]) with
        | (.error (.noop _), ops2) => ((.ok () : Except PyErr Unit), ops2)
        | other => other).2 = ops ∨
      ∃ old new, (match rename_asset repo (.inl (Record.updateWith asset0 content))
          none (ops ++ [Op.modifyAssets asset0 (Record.updateWith asset0 content)]) with
        | (.error (.noop _), ops2) => ((.ok () : Except PyErr Unit), ops2)
        | other => other).2 = ops ++ [Op.modifyAssets old new] := by
    intro path asset0
    rcases hr : rename_asset repo (.inl (Record.updateWith asset0 content))
        none (ops ++ [Op.modifyAssets asset0 (Record.updateWith asset0 content)])
      with ⟨res, ops2⟩
    have h2 := rename_asset_err_queue repo (.inl (Record.updateWith asset0 content))
      none (ops ++ [Op.modifyAssets asset0 (Record.updateWith asset0 content)])
    rw [hr] at h2
    match res with
    | .ok _ => simp [intentFailed]
    | .error (.noop m) => simp [intentFailed]
    | .error (.valueError m) =>
      intro _
      right
      exact ⟨asset0, Record.updateWith asset0 content, h2 (by rfl)⟩
    | .error (.keyError m) =>
      intro _
      right
      exact ⟨asset0, Record.updateWith asset0 content, h2 (by rfl)⟩
    | .error (.notAnAsset m) =>
      intro _
      right
      exact ⟨asset0, Record.updateWith asset0 content, h2 (by rfl)⟩
    | .error (.invalidInventoryOp m) =>
      intro _
      right
      exact ⟨asset0, Record.updateWith asset0 content, h2 (by rfl)⟩
    | .error (.onyoInvalidFilter m) =>
      intro _
      right
      exact ⟨asset0, Record.updateWith asset0 content, h2 (by rfl)⟩
  rcases x with a | p <;> dsimp only
  · cases hgp : Record.getPath a
    · simp [hgp, intentFailed]
    · rename_i path
      simp only [hgp]
      split_ifs with h1
      · simp [intentFailed]
      · exact core path a
  · split_ifs with h1
    · simp [intentFailed]
    · exact core p (repo.getAssetContent p)

/-- C1 (amended): every intent method other than `modify_asset` leaves the
operation queue exactly as it was whenever it raises; `modify_asset`
leaves either an unchanged queue (its own validation) or the queue with
exactly its `modify_assets` operation appended, when the implied rename
raises a hard validation error after the modify operation was enqueued. -/
theorem C1_validation_error_queue_unchanged :
    (∀ (repo : Repo) (a : Record) (ops : List Op),
      intentFailed (add_asset repo a ops).1 = true → (add_asset repo a ops).2 = ops) ∧
    (∀ (repo : Repo) (p : OPath) (ops : List Op),
      intentFailed (add_directory repo p ops).1 = true → (add_directory repo p ops).2 = ops) ∧
    (∀ (repo : Repo) (x : Record ⊕ OPath) (ops : List Op),
      intentFailed (remove_asset repo x ops).1 = true → (remove_asset repo x ops).2 = ops) ∧
    (∀ (repo : Repo) (x : Record ⊕ OPath) (dst : OPath) (ops : List Op),
      intentFailed (move_asset repo x dst ops).1 = true →
        (move_asset repo x dst ops).2 = ops) ∧
    (∀ (repo : Repo) (x : Record ⊕ OPath) (name : Option String) (ops : List Op),
      intentFailed (rename_asset repo x name ops).1 = true →
        (rename_asset repo x name ops).2 = ops) ∧
    (∀ (repo : Repo) (d : OPath) (ops : List Op),
      intentFailed (remove_directory repo d ops).1 = true →
        (remove_directory repo d ops).2 = ops) ∧
    (∀ (repo : Repo) (src dst : OPath) (ops : List Op),
      intentFailed (move_directory repo src dst ops).1 = true →
        (move_directory repo src dst ops).2 = ops) ∧
    (∀ (repo : Repo) (src : OPath) (dst : String ⊕ OPath) (ops : List Op),
      intentFailed (rename_directory repo src dst ops).1 = true →
        (rename_directory repo src dst ops).2 = ops) ∧
    (∀ (repo : Repo) (x : Record ⊕ OPath) (content : Record) (ops : List Op),
      intentFailed (modify_asset repo x content ops).1 = true →
        (modify_asset repo x content ops).2 = ops ∨
        ∃ old new, (modify_asset repo x content ops).2 = ops ++ [Op.modifyAssets old new]) :=
  ⟨add_asset_err_queue, add_directory_err_queue, remove_asset_err_queue,
    move_asset_err_queue, rename_asset_err_queue, remove_directory_err_queue,
    move_directory_err_queue, rename_directory_err_queue, modify_asset_err_queue⟩

/-- C1 counterexample: with no naming configuration, `modify_asset` on a
tracked asset raises a hard `ValueError` from the implied rename while
the `modify_assets` operation is already queued, so the queue is not as
it was before the call. -/
theorem C1_validation_error_queue_counterexample :
    intentFailed (modify_asset repoCfgNone (.inr ["x"]) [] []).1 = true ∧
    PyErr.isNoop (match (modify_asset repoCfgNone (.inr ["x"]) [] []).1 with
      | .error e => e
      | .ok _ => .noop "") = false ∧
    (modify_asset repoCfgNone (.inr ["x"]) [] []).2 ≠ [] :=
  ⟨by decide, by decide, by decide⟩

/-- Witness for C1 at a concrete failing `add_asset` call. -/
theorem C1_validation_error_queue_unchanged_witness :
    intentFailed (add_asset repoFail [] []).1 = true ∧ (add_asset repoFail [] []).2 = [] :=
  ⟨by decide, C1_validation_error_queue_unchanged.1 repoFail [] [] (by decide)⟩

theorem fauxLoop_some (repoSuffixes : List String) (rng : Nat → String) (num : Nat) :
    ∀ (fuel i : Nat) (acc l : List String),
      fauxLoop repoSuffixes rng num fuel i acc = some l →
      acc.Nodup → acc.length ≤ num →
      (∀ s ∈ acc, ∃ j, s = "faux" ++ rng j ∧ rng j ∉ repoSuffixes) →
      l.length = num ∧ l.Nodup ∧
        ∀ s ∈ l, ∃ j, s = "faux" ++ rng j ∧ rng j ∉ repoSuffixes := by
  intro fuel
  induction fuel with
  | zero =>
    intro i acc l h hnd hle hall
    unfold fauxLoop at h
    split_ifs at h with hlt
    injection h with h
    subst h
    exact ⟨le_antisymm hle (not_lt.mp hlt), hnd, hall⟩
  | succ fuel ih =>
    intro i acc l h hnd hle hall
    unfold fauxLoop at h
    split_ifs at h with hlt
    · dsimp only at h
      by_cases h1 : rng i ∈ repoSuffixes
      · rw [if_pos h1] at h
        exact ih _ _ _ h hnd hle hall
      · rw [if_neg h1] at h
        by_cases h2 : ("faux" ++ rng i) ∈ acc
        · rw [if_pos h2] at h
          exact ih _ _ _ h hnd hle hall
        · rw [if_neg h2] at h
          apply ih _ _ _ h
          · rw [← List.concat_eq_append]
            exact hnd.concat h2
          · rw [List.length_append]
            simpa using hlt
          · intro s hs
            rcases List.mem_append.mp hs with hs | hs
            · exact hall s hs
            · rcases List.mem_singleton.mp hs with rfl
              exact ⟨i, rfl, h1⟩
    · injection h with h
      subst h
      exact ⟨le_antisymm hle (not_lt.mp hlt), hnd, hall⟩

/-- C8: `get_faux_serials` rejects `length < 4` and `num < 1` with a
validation error; whenever its draw loop finishes it returns exactly
`num` distinct strings, each the literal marker `faux` followed by one of
the random draws, whose suffix avoids every placeholder suffix derived
from the existing asset file names; under the guarantee
`random.choices(alphanum, k=length)` gives (draws of length `length` over
the alphanumeric alphabet), every suffix is `length` alphanumeric
characters. -/
theorem C8_get_faux_serials_spec (repo : Repo) (rng : Nat → String) (fuel : Nat)
    (length num : Int) :
    (length < 4 → get_faux_serials repo rng fuel length num =
      .error (.valueError "The length of faux serial numbers must be >= 4.")) ∧
    (4 ≤ length → num < 1 → get_faux_serials repo rng fuel length num =
      .error (.valueError "The length of faux serial numbers must be >= 1.")) ∧
    (∀ l, get_faux_serials repo rng fuel length num = .ok (some l) →
      l.length = num.toNat ∧ l.Nodup ∧
      ∀ s ∈ l, ∃ j, s = "faux" ++ rng j ∧ rng j ∉ repoFauxSerials repo) ∧
    ((∀ i, (rng i).length = length.toNat ∧ ∀ c ∈ (rng i).toList, c ∈ ALPHANUM) →
      ∀ l, get_faux_serials repo rng fuel length num = .ok (some l) →
      ∀ s ∈ l, ∃ t, s = "faux" ++ t ∧ t.length = length.toNat ∧
        (∀ c ∈ t.toList, c ∈ ALPHANUM) ∧ t ∉ repoFauxSerials repo) := by
  have main : ∀ l, get_faux_serials repo rng fuel length num = .ok (some l) →
      l.length = num.toNat ∧ l.Nodup ∧
      ∀ s ∈ l, ∃ j, s = "faux" ++ rng j ∧ rng j ∉ repoFauxSerials repo := by
    intro l h
    unfold get_faux_serials at h
    split_ifs at h
    injection h with h
    exact fauxLoop_some (repoFauxSerials repo) rng num.toNat fuel 0 [] l h
      List.nodup_nil (by simp) (by simp)
  refine ⟨?_, ?_, main, ?_⟩
  · intro h
    unfold get_faux_serials
    rw [if_pos h]
  · intro h4 h1
    unfold get_faux_serials
    rw [if_neg (not_lt.mpr h4), if_pos h1]
  · intro hrng l h s hs
    rcases (main l h).2.2 s hs with ⟨j, rfl, hnot⟩
    exact ⟨rng j, rfl, (hrng j).1, (hrng j).2, hnot⟩

/-- Witness for C8: on `repoFaux` with the concrete draws `rngW`, five
distinct serials come back. -/
theorem C8_get_faux_serials_spec_witness :
    fauxResult.length = 5 ∧ fauxResult.Nodup := by
  have h := (C8_get_faux_serials_spec repoFaux rngW 16 4 5).2.2.1 fauxResult (by rfl)
  exact ⟨h.1, h.2.1⟩

theorem dedupGo_nil {α : Type} [DecidableEq α] (l : List α) :
    dedupGo ([] : List α) l = keepFirst l := by
  rw [dedupGo_eq_keepFirst]
  congr 1
  apply List.filter_eq_self.mpr
  intro a _
  simp

theorem keepFirst_append_singleton {α : Type} [DecidableEq α] (l : List α) (a : α) :
    keepFirst (l ++ [a]) = if a ∈ l then keepFirst l else keepFirst l ++ [a] := by
  induction l using keepFirst.induct with
  | case1 => simp [keepFirst_cons, keepFirst_nil]
  | case2 x xs ih =>
    rw [List.cons_append, keepFirst_cons, List.filter_append, keepFirst_cons]
    by_cases hax : a = x
    · subst hax
      simp only [List.filter_cons, ne_eq, not_true_eq_false, decide_False,
        Bool.false_eq_true, if_false, List.filter_nil, List.append_nil,
        List.mem_cons, true_or, if_true]
    · have hf : [a].filter (fun y => y ≠ x) = [a] := by
        simp [hax]
      rw [hf, ih]
      by_cases hmem : a ∈ xs
      · rw [if_pos (by simp [List.mem_filter, hmem, hax]),
          if_pos (by simp [List.mem_cons, hmem])]
      · rw [if_neg (by simp [List.mem_filter, hmem]),
          if_neg (by simp [List.mem_cons, hmem, hax])]
        simp

theorem entriesFor_append (t : String) (es : List (String × List String)) (k : String)
    (v : List String) :
    entriesFor t (es ++ [(k, v)]) = entriesFor t es ++ (if k = t then v else []) := by
  unfold entriesFor
  rw [List.filter_append, List.map_append, List.flatten_append]
  congr 1
  by_cases hk : k = t
  · simp [List.filter_cons, hk]
  · simp [List.filter_cons, hk]

theorem entriesFor_nil_of_not_mem (k : String) (es : List (String × List String))
    (h : k ∉ es.map Prod.fst) : entriesFor k es = [] := by
  unfold entriesFor
  rw [show es.filter (fun kv => kv.1 == k) = [] from ?_]
  · simp
  · apply List.filter_eq_nil_iff.mpr
    intro kv hkv hbeq
    exact h (List.mem_map.mpr ⟨kv, hkv, by simpa using hbeq⟩)

theorem groupTitles_keys (es : List (String × List String)) :
    (groupTitles es).map Prod.fst = keepFirst (es.map Prod.fst) := by
  unfold groupTitles
  rw [List.map_map]
  exact List.map_id _ ▸ rfl

theorem addRecordEntry_groupTitles (es : List (String × List String)) (k : String)
    (v : List String) :
    addRecordEntry (groupTitles es) k v = groupTitles (es ++ [(k, v)]) := by
  unfold addRecordEntry
  by_cases hk : k ∈ es.map Prod.fst
  · rw [if_pos (by
      rw [List.any_eq_true]
      exact ⟨(k, entriesFor k es),
        List.mem_map.mpr ⟨k, (mem_keepFirst k _).mpr hk, rfl⟩, by simp⟩)]
    unfold groupTitles
    rw [List.map_map,
      show (es ++ [(k, v)]).map Prod.fst = es.map Prod.fst ++ [k] from by simp,
      keepFirst_append_singleton, if_pos hk]
    apply List.map_congr_left
    intro t _
    by_cases htk : t = k
    · subst htk
      simp [entriesFor_append]
    · have hbeq : (t == k) = false := by simp [htk]
      have hne : k ≠ t := fun e => htk e.symm
      simp [Function.comp, hbeq, entriesFor_append, hne]
  · rw [if_neg (by
      rw [List.any_eq_true]
      rintro ⟨ts, hts, hbeq⟩
      rcases List.mem_map.mp hts with ⟨t, htm, rfl⟩
      exact hk ((by simpa using hbeq : t = k) ▸ (mem_keepFirst t _).mp htm))]
    unfold groupTitles
    rw [show (es ++ [(k, v)]).map Prod.fst = es.map Prod.fst ++ [k] from by simp,
      keepFirst_append_singleton, if_neg hk, List.map_append]
    congr 1
    · apply List.map_congr_left
      intro t ht
      have htm : t ∈ es.map Prod.fst := (mem_keepFirst _ _).mp ht
      have htk : k ≠ t := fun e => hk (e ▸ htm)
      simp [entriesFor_append, htk]
    · simp [entriesFor_append, entriesFor_nil_of_not_mem k es hk]

theorem foldl_addRecordEntry (es ps : List (String × List String)) :
    es.foldl (fun r kv => addRecordEntry r kv.1 kv.2) (groupTitles ps) =
      groupTitles (ps ++ es) := by
  induction es generalizing ps with
  | nil => simp
  | cons kv es ih =>
    rcases kv with ⟨k, v⟩
    rw [List.foldl_cons, addRecordEntry_groupTitles, ih (ps ++ [(k, v)]),
      List.append_assoc]
    rfl

theorem commitRecord_eq_groupTitles (ops : List Op) :
    commitRecord ops = groupTitles ((ops.map recordOp).flatten) := by
  unfold commitRecord
  have flat : ∀ (ops : List Op) (acc : List (String × List String)),
      ops.foldl (fun rec op => (recordOp op).foldl
        (fun r kv => addRecordEntry r kv.1 kv.2) rec) acc =
      ((ops.map recordOp).flatten).foldl (fun r kv => addRecordEntry r kv.1 kv.2) acc := by
    intro ops
    induction ops with
    | nil => intro acc; rfl
    | cons op ops ih =>
      intro acc
      rw [List.foldl_cons, ih, List.map_cons, List.flatten_cons, List.foldl_append]
  rw [flat]
  have h0 : ([] : List (String × List String)) = groupTitles [] := by
    unfold groupTitles
    simp [keepFirst_nil]
  rw [h0, foldl_addRecordEntry]
  rfl

theorem setIterRev_eq (l : List String) : setIterRev l = (keepFirst l).reverse := by
  unfold setIterRev
  rw [dedupGo_nil]

theorem setIterRev_ok : SetIterOK setIterRev := by
  intro l
  rw [setIterRev_eq]
  exact ⟨List.nodup_reverse.mpr (nodup_keepFirst l),
    fun x => by rw [List.mem_reverse, mem_keepFirst]⟩

theorem commitExecutionOrder_eq (ops : List Op) : commitExecutionOrder ops = ops := by
  unfold commitExecutionOrder
  have : ∀ (l acc : List Op), l.foldl (fun acc op => acc ++ [op]) acc = acc ++ l := by
    intro l
    induction l with
    | nil => intro acc; simp
    | cons op l ih =>
      intro acc
      rw [List.foldl_cons, ih, List.append_assoc]
      rfl
  rw [this]
  rfl

theorem join_pair (a b : String) : String.join [a, b] = a ++ b := by
  show (("" ++ a) ++ b) = a ++ b
  rw [String.empty_append]

theorem join_one (a : String) : String.join [a] = a := by
  show ("" ++ a) = a
  rw [String.empty_append]

/-- C2 (amended): `commit` renders the user message, the fixed operations
header, and one section per distinct title in first-encounter order; the
snippets of a title are accumulated in operation order (`groupTitles` of
the flattened recorder output), and the rendered section contains each
distinct snippet of that title exactly once, in the set-iteration order
of the Python runtime, which is some permutation of the distinct snippets
in first-encounter order rather than necessarily that order itself. -/
theorem C2_commit_message_structure (setIter : List String → List String)
    (msg : String) (ops : List Op) (hset : SetIterOK setIter) :
    commitMessage setIter msg ops = msg ++ "\n\n--- Inventory Operations ---\n" ++
      String.join ((groupTitles ((ops.map recordOp).flatten)).map
        (fun ts => ts.1 ++ String.join (setIter ts.2))) ∧
    (commitRecord ops).map Prod.fst =
      keepFirst (((ops.map recordOp).flatten).map Prod.fst) ∧
    (∀ t s, (t, s) ∈ commitRecord ops → s = entriesFor t ((ops.map recordOp).flatten)) ∧
    (∀ s : List String, (setIter s).Perm (keepFirst s)) := by
  refine ⟨?_, ?_, ?_, ?_⟩
  · unfold commitMessage
    rw [commitRecord_eq_groupTitles]
  · rw [commitRecord_eq_groupTitles, groupTitles_keys]
  · intro t s hts
    rw [commitRecord_eq_groupTitles] at hts
    unfold groupTitles at hts
    rcases List.mem_map.mp hts with ⟨t2, _, heq⟩
    injection heq with h1 h2
    subst h1
    exact h2.symm
  · intro s
    rw [List.perm_ext_iff_of_nodup (hset s).1 (nodup_keepFirst s)]
    intro a
    rw [(hset s).2 a, mem_keepFirst]

/-- C2 counterexample: under an admissible set-iteration order the two
distinct snippets of one title are rendered in reversed order, so the
message differs from the first-encountered-order rendering the claim
describes. -/
theorem C2_commit_message_counterexample :
    SetIterOK setIterRev ∧
    commitMessage setIterRev "m" opsTwoDirs ≠ claimedCommitMessage "m" opsTwoDirs := by
  refine ⟨setIterRev_ok, ?_⟩
  have e2 : claimedCommitMessage "m" opsTwoDirs =
      "m" ++ "\n\n--- Inventory Operations ---\n" ++
        String.join ["New directories:\n" ++ String.join ["- a\n", "- b\n"]] := by
    unfold claimedCommitMessage
    rw [show commitRecord opsTwoDirs =
      [("New directories:\n", ["- a\n", "- b\n"])] from rfl]
    rw [List.map_cons, List.map_nil,
      show keepFirst ["- a\n", "- b\n"] = ["- a\n", "- b\n"] from
        keepFirst_of_nodup _ (by decide)]
  rw [e2]
  decide

/-- Witness for C2 at the concrete order `setIterRev` and a one-element
queue. -/
theorem C2_commit_message_structure_witness :
    commitMessage setIterRev "m" [Op.newDirectories ["a"]] =
      "m" ++ "\n\n--- Inventory Operations ---\n" ++
      String.join ((groupTitles (([Op.newDirectories ["a"]].map recordOp).flatten)).map
        (fun ts => ts.1 ++ String.join (setIterRev ts.2))) :=
  (C2_commit_message_structure setIterRev "m" [Op.newDirectories ["a"]] setIterRev_ok).1

/-- C5: `commit` executes the queue strictly in enqueue order (never
regrouped by kind); in the scenario `add_directory("lab/")` then
`add_asset(laptop record)` the queue holds the directory creations before
the asset creation (the parent directory is even enqueued twice, once per
intent call, deduplicated only in the message), and the assembled commit
message carries the directory-created section before the asset-created
section for every set-iteration order. -/
theorem C5_commit_queue_order :
    (∀ ops : List Op, commitExecutionOrder ops = ops) ∧
    add_directory repoScn ["lab"] [] = (.ok (), [.newDirectories ["lab"]]) ∧
    (add_asset repoScn assetScn [Op.newDirectories ["lab"]]).1 = .ok () ∧
    scnQueue = [.newDirectories ["lab"], .newDirectories ["lab"], .newAssets assetScn] ∧
    commitRecord scnQueue =
      [("New directories:\n", ["- lab\n", "- lab\n"]),
       ("New assets:\n", ["- lab/laptop_apple_macbookpro.0\n"])] ∧
    ∀ setIter : List String → List String,
      commitMessage setIter "add laptop" scnQueue =
        "add laptop" ++ "\n\n--- Inventory Operations ---\n" ++
        (("New directories:\n" ++ String.join (setIter ["- lab\n", "- lab\n"])) ++
          ("New assets:\n" ++ String.join (setIter ["- lab/laptop_apple_macbookpro.0\n"]))) := by
  refine ⟨commitExecutionOrder_eq, by decide, by decide, by decide, by decide, ?_⟩
  intro setIter
  unfold commitMessage
  rw [show commitRecord scnQueue =
    [("New directories:\n", ["- lab\n", "- lab\n"]),
     ("New assets:\n", ["- lab/laptop_apple_macbookpro.0\n"])] from rfl]
  rw [List.map_cons, List.map_cons, List.map_nil, join_pair]

end Onyo
